import Mathlib

/-!
Verification of the SamiTorch metric, one-hot utility and 3D U-Net assembly code.

The development shallowly embeds the Python sources:
  - samitorch/metrics/metric.py   (Dice and Generalized Dice coefficients)
  - samitorch/utils/utils.py      (one-hot expansion)
  - samitorch/models/unet3d.py    (encoder/decoder channel arithmetic)

Confusion matrices and weight vectors are lists of rationals: the source casts
the integer confusion matrix to 64-bit floats before the Dice formula, and the
embedding idealises that high-precision arithmetic as exact rational
arithmetic.  Python assertion failures and dynamic type errors are embedded as
an explicit error type threaded through Except.
-/

/-- Error outcomes of the Python metric code.  The three assert statements in
validate_ignore_index, validate_num_classes and validate_weights_size raise
AssertionError; the extra constructors model the dynamic failures reached when
weights is None (AttributeError on weights.size(), TypeError on tensor * None)
and when two tensors of incompatible 1-D shapes are combined (RuntimeError). -/
inductive PyError
  | assertIgnoreIndexNonneg
  | assertIgnoreIndexLtNumClasses
  | assertWeightsSize
  | assertIgnoreIndexLeLen
  | attributeErrorNoneSize
  | typeErrorMulNone
  | runtimeErrorSizeMismatch
deriving DecidableEq

/-- EPSILON = 1e-15 from metric.py line 24, as an exact rational. -/
def EPSILON : ℚ := 1 / 10 ^ 15

/-- Embedding of cm.sum(dim=1): the vector of row sums. -/
def cmSumDim1 (cm : List (List ℚ)) : List ℚ := cm.map List.sum

/-- Embedding of cm.sum(dim=0): the vector of column sums of a square matrix. -/
def cmSumDim0 (cm : List (List ℚ)) : List ℚ :=
  (List.range cm.length).map (fun j => (cm.map (fun row => row.getD j 0)).sum)

/-- Embedding of cm.diag(): the diagonal of the matrix. -/
def cmDiag (cm : List (List ℚ)) : List ℚ :=
  (List.range cm.length).map (fun i => (cm.getD i []).getD i 0)

/-- Torch 1-D broadcasting for a binary elementwise operation: equal lengths
operate pointwise, a length-one operand broadcasts, anything else raises a
RuntimeError about mismatched sizes. -/
def bcast2 (f : ℚ → ℚ → ℚ) (a b : List ℚ) : Except PyError (List ℚ) :=
  if a.length = b.length then Except.ok (List.zipWith f a b)
  else if a.length = 1 then Except.ok (b.map (f (a.headD 0)))
  else if b.length = 1 then Except.ok (a.map (fun x => f x (b.headD 0)))
  else Except.error PyError.runtimeErrorSizeMismatch

/-- Embedding of validate_ignore_index (metric.py lines 264-271):
assert ignore_index is non-negative. -/
def validate_ignore_index (ignore_index : Int) : Except PyError Unit :=
  if 0 ≤ ignore_index then Except.ok ()
  else Except.error PyError.assertIgnoreIndexNonneg

/-- Embedding of validate_num_classes (metric.py lines 274-283):
assert ignore_index is strictly below the number of classes. -/
def validate_num_classes (ignore_index : Int) (num_classes : Nat) : Except PyError Unit :=
  if ignore_index < (num_classes : Int) then Except.ok ()
  else Except.error PyError.assertIgnoreIndexLtNumClasses

/-- Embedding of validate_weights_size (metric.py lines 286-295):
assert the weight vector length equals the number of classes. -/
def validate_weights_size (weights_size : Nat) (num_classes : Nat) : Except PyError Unit :=
  if weights_size = num_classes then Except.ok ()
  else Except.error PyError.assertWeightsSize

/-- Embedding of the remove_index closure shared by both Dice computations
(metric.py lines 189-193 and 223-227): assert ignore_index <= len(dice_vector),
then index-select every position different from ignore_index. -/
def remove_index (ignore_index : Int) (dice_vector : List ℚ) : Except PyError (List ℚ) :=
  if ignore_index ≤ (dice_vector.length : Int) then
    Except.ok (((List.range dice_vector.length).filter
      (fun x : Nat => ((x : Int) != ignore_index))).map (fun i => dice_vector.getD i 0))
  else Except.error PyError.assertIgnoreIndexLeLen

/-- The tensor expression of metric.py line 186:
2 * cm.diag() / (cm.sum(dim=1) + cm.sum(dim=0) + EPSILON). -/
def diceOps (cm : List (List ℚ)) : Except PyError (List ℚ) :=
  match bcast2 (· + ·) (cmSumDim1 cm) (cmSumDim0 cm) with
  | Except.error e => Except.error e
  | Except.ok s =>
    bcast2 (· / ·) ((cmDiag cm).map (fun d => 2 * d)) (s.map (fun x => x + EPSILON))

/-- Embedding of compute_dice_coefficient (metric.py lines 169-197): validate
the ignore index when one is supplied, evaluate the per-class Dice formula,
and remove the ignored entry from the result. -/
def compute_dice_coefficient (cm : List (List ℚ)) (ignore_index : Option Int) :
    Except PyError (List ℚ) :=
  match ignore_index with
  | some k =>
    (match validate_ignore_index k with
     | Except.error e => Except.error e
     | Except.ok _ =>
       match validate_num_classes k cm.length with
       | Except.error e => Except.error e
       | Except.ok _ =>
         match diceOps cm with
         | Except.error e => Except.error e
         | Except.ok dice => remove_index k dice)
  | none => diceOps cm

/-- The tensor expression of metric.py line 220:
2 * (cm.diag() * weights) / ((cm.sum(dim=1) + cm.sum(dim=0)) * weights + EPSILON). -/
def genOps (cm : List (List ℚ)) (w : List ℚ) : Except PyError (List ℚ) :=
  match bcast2 (· * ·) (cmDiag cm) w with
  | Except.error e => Except.error e
  | Except.ok dw =>
    match bcast2 (· + ·) (cmSumDim1 cm) (cmSumDim0 cm) with
    | Except.error e => Except.error e
    | Except.ok s =>
      match bcast2 (· * ·) s w with
      | Except.error e => Except.error e
      | Except.ok sw =>
        bcast2 (· / ·) (dw.map (fun x => 2 * x)) (sw.map (fun x => x + EPSILON))

/-- Embedding of compute_generalized_dice_coefficient (metric.py lines
200-231).  The weight-size validation runs only inside the `if ignore_index is
not None` block, exactly as in the source; there, weights.size() on a None
weights raises AttributeError.  Without an ignore index the weighted formula
is evaluated directly, and multiplying a tensor by a None weights raises
TypeError. -/
def compute_generalized_dice_coefficient (cm : List (List ℚ)) (weights : Option (List ℚ))
    (ignore_index : Option Int) : Except PyError (List ℚ) :=
  match ignore_index with
  | some k =>
    (match validate_ignore_index k with
     | Except.error e => Except.error e
     | Except.ok _ =>
       match validate_num_classes k cm.length with
       | Except.error e => Except.error e
       | Except.ok _ =>
         match weights with
         | none => Except.error PyError.attributeErrorNoneSize
         | some w =>
           match validate_weights_size w.length cm.length with
           | Except.error e => Except.error e
           | Except.ok _ =>
             match genOps cm w with
             | Except.error e => Except.error e
             | Except.ok dice => remove_index k dice)
  | none =>
    match weights with
    | none => Except.error PyError.typeErrorMulNone
    | some w => genOps cm w

/-- The value held by the lazily rebuilt metric expression of the
GeneralizedDice object: a per-class vector, or a scalar after mean reduction. -/
inductive MetricValue
  | vec : List ℚ → MetricValue
  | scalar : ℚ → MetricValue
deriving DecidableEq

/-- The reduction tag compared against the string "mean" in the source. -/
inductive ReductionTag
  | mean
deriving DecidableEq

/-- Embedding of torch mean on a 1-D tensor. -/
def listMean (l : List ℚ) : ℚ := l.sum / (l.length : ℚ)

/-- Embedding of GeneralizedDice.update (metric.py lines 152-166): rebuild the
generalized Dice expression from the accumulated confusion matrix and the
weights supplied to this call, applying mean reduction when configured.  The
host framework builds this expression lazily and evaluates it on compute();
the embedding evaluates it directly, per the eager reading of that design. -/
def GeneralizedDice_update (cm : List (List ℚ)) (reduction : Option ReductionTag)
    (ignore_index : Option Int) (weights : Option (List ℚ)) : Except PyError MetricValue :=
  match compute_generalized_dice_coefficient cm weights ignore_index with
  | Except.error e => Except.error e
  | Except.ok dice =>
    match reduction with
    | some ReductionTag.mean => Except.ok (MetricValue.scalar (listMean dice))
    | none => Except.ok (MetricValue.vec dice)

/-- A square confusion matrix: every row has as many entries as there are rows. -/
@[reducible] def IsSquareCM (cm : List (List ℚ)) : Prop :=
  ∀ row ∈ cm, row.length = cm.length

/-- All entries of the matrix are non-negative, as holds for accumulated counts. -/
@[reducible] def NonnegEntries (cm : List (List ℚ)) : Prop :=
  ∀ row ∈ cm, ∀ x ∈ row, 0 ≤ x

/-- Every off-diagonal entry is zero. -/
@[reducible] def IsDiagonal (cm : List (List ℚ)) : Prop :=
  ∀ i, i < cm.length → ∀ j, j < cm.length → i ≠ j → (cm.getD i []).getD j 0 = 0

/-- One row of to_onehot: the class axis inserted for a single leading-axis
slice, listing for each class c the indicator of each spatial position. -/
def onehotRow (num_classes : Nat) (row : List Nat) : List (List ℚ) :=
  (List.range num_classes).map (fun c => row.map (fun v => if v = c then (1 : ℚ) else 0))

/-- Embedding of to_onehot (utils.py lines 21-25): a zero tensor of shape
(N, num_classes, spatial) scattered with ones along axis 1 at the positions
given by the index tensor.  The spatial axes are flattened into one list. -/
def to_onehot (indices : List (List Nat)) (num_classes : Nat) : List (List (List ℚ)) :=
  indices.map (onehotRow num_classes)

/-- Index of the first maximal element, tracking the running best value and
its index, as torch argmax does. -/
def argmaxAux : List ℚ → Nat → ℚ → Nat → Nat
  | [], _, _, best => best
  | x :: xs, i, bestVal, best =>
    if bestVal < x then argmaxAux xs (i + 1) x i else argmaxAux xs (i + 1) bestVal best

/-- Index of the first maximal element of a list (0 on the empty list). -/
def argmaxList : List ℚ → Nat
  | [] => 0
  | x :: xs => argmaxAux xs 1 x 0

/-- The vector of per-class values at one spatial position p of a
(class, spatial) slice. -/
def classColumn (channels : List (List ℚ)) (p : Nat) : List ℚ :=
  channels.map (fun ch => ch.getD p 0)

/-- Arg-max along axis 1 of an (N, class, spatial) tensor, producing an
(N, spatial) tensor of class indices. -/
def argmaxAxis1 (t : List (List (List ℚ))) : List (List Nat) :=
  t.map (fun channels =>
    (List.range ((channels.headD []).length)).map
      (fun p => argmaxList (classColumn channels p)))

/-- Kinds of activation layers named in model configurations. -/
inductive ActivationKind
  | relu
  | leakyRelu
  | prelu
deriving DecidableEq

/-- Kinds of pooling layers named in model configurations. -/
inductive PoolingKind
  | maxPool
  | avgPool
deriving DecidableEq

/-- The model configuration record consumed read-only by the UNet3D assembly
code (fields as read in unet3d.py). -/
structure ModelConfiguration where
  feature_maps : Nat
  num_levels : Nat
  in_channels : Nat
  out_channels : Nat
  conv_kernel_size : Nat
  num_groups : Option Nat
  padding : Option (List Nat)
  activation : Option ActivationKind
  pooling_type : PoolingKind
  pool_kernel_size : Nat
  interpolation : Bool
  scale_factor : Nat
deriving DecidableEq

/-- Embedding of UNet3D._get_feature_maps (unet3d.py lines 46-48):
[starting_feature_maps * 2 ** k for k in range(num_levels)]. -/
def getFeatureMaps (starting_feature_maps : Nat) (num_levels : Nat) : List Nat :=
  (List.range num_levels).map (fun k => starting_feature_maps * 2 ^ k)

/-- Channel widths computed by DoubleConv.__init__ (unet3d.py lines 171-189):
the (input, output) channel pair of each of the two SingleConv sublayers. -/
def doubleConvChannels (in_channels : Nat) (out_channels : Nat) (is_in_encoder : Bool) :
    (Nat × Nat) × (Nat × Nat) :=
  if is_in_encoder then
    let conv1_out_channels := out_channels / 2
    let conv1_out_channels :=
      if conv1_out_channels < in_channels then in_channels else conv1_out_channels
    ((in_channels, conv1_out_channels), (conv1_out_channels, out_channels))
  else
    ((in_channels, out_channels), (out_channels, out_channels))

/-- The argument passed as padding when Decoder.__init__ builds its
ConvTranspose3d: a ReplicationPad3d module constructed from config.padding. -/
inductive PaddingArg
  | replicationPad3d : Option (List Nat) → PaddingArg
deriving DecidableEq

/-- The constructor arguments of the learned upsampling layer built in
Decoder.__init__ (unet3d.py lines 273-278). -/
structure ConvTranspose3dSpec where
  in_channels : Nat
  out_channels : Nat
  kernel_size : Nat
  stride : Nat
  padding : PaddingArg
  output_padding : Nat
deriving DecidableEq

/-- What Decoder.__init__ stores: the optional learned upsample layer and the
channel pair handed to the DoubleConv basic module. -/
structure DecoderSpec where
  upsample : Option ConvTranspose3dSpec
  basic_module_in : Nat
  basic_module_out : Nat
deriving DecidableEq

/-- A decoder stage with no layers, used as a list-indexing default. -/
def emptyDecoder : DecoderSpec :=
  { upsample := none, basic_module_in := 0, basic_module_out := 0 }

/-- Embedding of Decoder.__init__ (unet3d.py lines 261-286): with
interpolation there is no upsample layer and the DoubleConv keeps the given
channel pair; otherwise a ConvTranspose3d from in_channels to out_channels is
built with the configured kernel size, stride equal to the configured scale
factor, a ReplicationPad3d padding argument and output_padding 1, and
in_channels is re-bound to out_channels before building the DoubleConv. -/
def decoderInit (in_channels : Nat) (out_channels : Nat) (config : ModelConfiguration) :
    DecoderSpec :=
  if config.interpolation then
    { upsample := none, basic_module_in := in_channels, basic_module_out := out_channels }
  else
    { upsample := some
        { in_channels := in_channels
          out_channels := out_channels
          kernel_size := config.conv_kernel_size
          stride := config.scale_factor
          padding := PaddingArg.replicationPad3d config.padding
          output_padding := 1 }
      basic_module_in := out_channels
      basic_module_out := out_channels }

/-- Dataflow of a decoder stage's forward pass, as a symbolic term over the
stage input and the saved encoder features. -/
inductive TensorExpr
  | input
  | encoderFeatures
  | interpolateToEncoder : TensorExpr → TensorExpr
  | upsampleApply : ConvTranspose3dSpec → TensorExpr → TensorExpr
  | cat : TensorExpr → TensorExpr → TensorExpr
  | add : TensorExpr → TensorExpr → TensorExpr
  | basicModule : Nat → Nat → TensorExpr → TensorExpr
deriving DecidableEq

/-- Embedding of Decoder.forward (unet3d.py lines 288-310): without an
upsample layer, interpolate the input to the encoder feature size and
concatenate along the channel axis; with one, apply it and join by elementwise
addition; then apply the DoubleConv basic module. -/
def decoderForward (d : DecoderSpec) : TensorExpr :=
  match d.upsample with
  | none =>
    TensorExpr.basicModule d.basic_module_in d.basic_module_out
      (TensorExpr.cat TensorExpr.encoderFeatures
        (TensorExpr.interpolateToEncoder TensorExpr.input))
  | some s =>
    TensorExpr.basicModule d.basic_module_in d.basic_module_out
      (TensorExpr.add (TensorExpr.upsampleApply s TensorExpr.input)
        TensorExpr.encoderFeatures)

/-- Embedding of UNet3D._build_decoder (unet3d.py lines 63-72): reverse the
feature-map list and build one decoder per adjacent pair, with input channels
the sum of the pair and output channels the second element. -/
def buildDecoder (feature_maps : List Nat) (config : ModelConfiguration) : List DecoderSpec :=
  let reversed_feature_maps := feature_maps.reverse
  (List.range (reversed_feature_maps.length - 1)).map (fun i =>
    decoderInit
      (reversed_feature_maps.getD i 0 + reversed_feature_maps.getD (i + 1) 0)
      (reversed_feature_maps.getD (i + 1) 0) config)

/-- A concrete configuration selecting interpolation upsampling, as used by
the repository's UNet3D tests. -/
def exampleInterpConfig : ModelConfiguration :=
  { feature_maps := 4
    num_levels := 3
    in_channels := 1
    out_channels := 2
    conv_kernel_size := 3
    num_groups := some 8
    padding := none
    activation := some ActivationKind.relu
    pooling_type := PoolingKind.maxPool
    pool_kernel_size := 2
    interpolation := true
    scale_factor := 2 }

/-- A concrete configuration selecting transposed-convolution upsampling. -/
def exampleTransposeConfig : ModelConfiguration :=
  { feature_maps := 4
    num_levels := 3
    in_channels := 1
    out_channels := 2
    conv_kernel_size := 3
    num_groups := some 8
    padding := some [1, 1, 1, 1, 1, 1]
    activation := some ActivationKind.relu
    pooling_type := PoolingKind.maxPool
    pool_kernel_size := 2
    interpolation := false
    scale_factor := 2 }

/-- The per-class Dice vector produced by the tensor expression of diceOps
once the shapes are known to agree. -/
def diceVec (cm : List (List ℚ)) : List ℚ :=
  List.zipWith (· / ·) ((cmDiag cm).map (fun d => 2 * d))
    ((List.zipWith (· + ·) (cmSumDim1 cm) (cmSumDim0 cm)).map (fun x => x + EPSILON))

theorem length_cmSumDim1 (cm : List (List ℚ)) : (cmSumDim1 cm).length = cm.length := by
  simp [cmSumDim1]

theorem length_cmSumDim0 (cm : List (List ℚ)) : (cmSumDim0 cm).length = cm.length := by
  simp [cmSumDim0]

theorem length_cmDiag (cm : List (List ℚ)) : (cmDiag cm).length = cm.length := by
  simp [cmDiag]

theorem bcast2_ok_of_len (f : ℚ → ℚ → ℚ) (a b : List ℚ) (h : a.length = b.length) :
    bcast2 f a b = Except.ok (List.zipWith f a b) := by
  simp [bcast2, h]

theorem diceOps_eq (cm : List (List ℚ)) : diceOps cm = Except.ok (diceVec cm) := by
  rw [diceOps, bcast2_ok_of_len _ _ _ (by rw [length_cmSumDim1, length_cmSumDim0])]
  dsimp only
  rw [bcast2_ok_of_len _ _ _
    (by simp [length_cmDiag, length_cmSumDim1, length_cmSumDim0]), diceVec]

theorem length_diceVec (cm : List (List ℚ)) : (diceVec cm).length = cm.length := by
  simp [diceVec, length_cmDiag, length_cmSumDim1, length_cmSumDim0]

theorem zipWith_mul_replicate_one (l : List ℚ) :
    List.zipWith (· * ·) l (List.replicate l.length 1) = l := by
  induction l with
  | nil => rfl
  | cons a tl ih => simp [List.replicate_succ, ih]

theorem zipWith_mul_ones (l : List ℚ) (n : Nat) (h : l.length = n) :
    List.zipWith (· * ·) l (List.replicate n 1) = l := by
  subst h; exact zipWith_mul_replicate_one l

theorem genOps_ones (cm : List (List ℚ)) :
    genOps cm (List.replicate cm.length 1) = diceOps cm := by
  have hdw := bcast2_ok_of_len (· * ·) (cmDiag cm) (List.replicate cm.length 1)
    (by simp [length_cmDiag])
  rw [zipWith_mul_ones _ _ (length_cmDiag cm)] at hdw
  have hsw := bcast2_ok_of_len (· * ·)
    (List.zipWith (· + ·) (cmSumDim1 cm) (cmSumDim0 cm)) (List.replicate cm.length 1)
    (by simp [length_cmSumDim1, length_cmSumDim0])
  rw [zipWith_mul_ones _ _ (by simp [length_cmSumDim1, length_cmSumDim0])] at hsw
  have hs := bcast2_ok_of_len (· + ·) (cmSumDim1 cm) (cmSumDim0 cm)
    (by rw [length_cmSumDim1, length_cmSumDim0])
  rw [genOps, diceOps, hdw, hs]
  dsimp only
  rw [hsw]

theorem map_getD_range {α : Type} (l : List α) (d : α) :
    (List.range l.length).map (fun i => l.getD i d) = l := by
  induction l with
  | nil => rfl
  | cons a tl ih =>
    rw [List.length_cons, List.range_succ_eq_map, List.map_cons, List.map_map]
    simp only [List.getD_cons_zero]
    have hcomp : ((fun i => (a :: tl).getD i d) ∘ Nat.succ) = (fun i => tl.getD i d) := by
      funext i
      simp [Function.comp, List.getD_cons_succ]
    rw [hcomp, ih]

theorem cmDiag_getD (cm : List (List ℚ)) (k : Nat) (hk : k < cm.length) :
    (cmDiag cm).getD k 0 = (cm.getD k []).getD k 0 := by
  rw [cmDiag, List.getD_eq_getElem _ _ (by simpa using hk), List.getElem_map,
    List.getElem_range]

theorem cmSumDim1_getD (cm : List (List ℚ)) (k : Nat) (hk : k < cm.length) :
    (cmSumDim1 cm).getD k 0 = (cm.getD k []).sum := by
  rw [cmSumDim1, List.getD_eq_getElem _ _ (by simpa using hk), List.getElem_map,
    List.getD_eq_getElem _ _ hk]

theorem cmSumDim0_getD (cm : List (List ℚ)) (k : Nat) (hk : k < cm.length) :
    (cmSumDim0 cm).getD k 0 = (cm.map (fun row => row.getD k 0)).sum := by
  rw [cmSumDim0, List.getD_eq_getElem _ _ (by simpa using hk), List.getElem_map,
    List.getElem_range]

theorem diceVec_getD (cm : List (List ℚ)) (k : Nat) (hk : k < cm.length) :
    (diceVec cm).getD k 0 =
      2 * ((cm.getD k []).getD k 0) /
        ((cm.getD k []).sum + (cm.map (fun row => row.getD k 0)).sum + EPSILON) := by
  have hlen : k < (diceVec cm).length := by rw [length_diceVec]; exact hk
  have h1 : k < ((cmDiag cm).map (fun d => 2 * d)).length := by
    simp [length_cmDiag]; exact hk
  have h2 : k < ((List.zipWith (· + ·) (cmSumDim1 cm) (cmSumDim0 cm)).map
      (fun x => x + EPSILON)).length := by
    simp [length_cmSumDim1, length_cmSumDim0]; exact hk
  have h3 : k < (List.zipWith (· + ·) (cmSumDim1 cm) (cmSumDim0 cm)).length := by
    simp [length_cmSumDim1, length_cmSumDim0]; exact hk
  have h4 : k < (cmSumDim1 cm).length := by rw [length_cmSumDim1]; exact hk
  have h5 : k < (cmSumDim0 cm).length := by rw [length_cmSumDim0]; exact hk
  have h6 : k < (cmDiag cm).length := by rw [length_cmDiag]; exact hk
  rw [diceVec]
  rw [List.getD_eq_getElem _ _
    (by simp [length_cmDiag, length_cmSumDim1, length_cmSumDim0]; exact hk)]
  rw [List.getElem_zipWith, List.getElem_map, List.getElem_map, List.getElem_zipWith]
  rw [← List.getD_eq_getElem (cmDiag cm) 0 h6, ← List.getD_eq_getElem (cmSumDim1 cm) 0 h4,
    ← List.getD_eq_getElem (cmSumDim0 cm) 0 h5]
  rw [cmDiag_getD cm k hk, cmSumDim1_getD cm k hk, cmSumDim0_getD cm k hk, add_assoc]

theorem dice_none_eq (cm : List (List ℚ)) :
    compute_dice_coefficient cm none = Except.ok (diceVec cm) := by
  rw [compute_dice_coefficient, diceOps_eq]

theorem sum_eq_getD_of_others_zero (l : List ℚ) (k : Nat) (hk : k < l.length)
    (h0 : ∀ j, j < l.length → j ≠ k → l.getD j 0 = 0) : l.sum = l.getD k 0 := by
  induction l generalizing k with
  | nil => exact absurd hk (by simp)
  | cons a tl ih =>
    cases k with
    | zero =>
      have htl : tl.sum = 0 := by
        apply List.sum_eq_zero
        intro x hx
        rcases List.mem_iff_getElem.mp hx with ⟨j, hj, rfl⟩
        have := h0 (j + 1) (by simpa using hj) (by simp)
        rwa [List.getD_cons_succ, List.getD_eq_getElem _ _ hj] at this
      simp [htl]
    | succ k' =>
      have ha : a = 0 := by
        have := h0 0 (by simp) (by simp)
        simpa using this
      have htl : tl.sum = tl.getD k' 0 := by
        apply ih k' (by simpa using hk)
        intro j hj hjk
        have := h0 (j + 1) (by simpa using hj) (by simpa using hjk)
        rwa [List.getD_cons_succ] at this
      simp [ha, htl]

theorem filter_range_map_getD_eraseIdx (l : List ℚ) (m : Nat) :
    ((List.range l.length).filter (fun x => x != m)).map (fun i => l.getD i 0) =
      l.eraseIdx m := by
  induction l generalizing m with
  | nil => simp
  | cons a tl ih =>
    rw [List.length_cons, List.range_succ_eq_map]
    cases m with
    | zero =>
      rw [List.eraseIdx_cons_zero, List.filter_cons]
      have hhead : ((0 : Nat) != 0) = false := by decide
      rw [hhead]
      simp only [Bool.false_eq_true, if_false]
      rw [List.filter_map]
      have hkeep : (List.range tl.length).filter ((fun x => x != 0) ∘ Nat.succ) =
          List.range tl.length := by
        apply List.filter_eq_self.mpr
        intro x _
        simp [Function.comp]
      rw [hkeep, List.map_map]
      have hcomp : ((fun i => (a :: tl).getD i 0) ∘ Nat.succ) = (fun i => tl.getD i 0) := by
        funext i
        simp [Function.comp, List.getD_cons_succ]
      rw [hcomp, map_getD_range]
    | succ m' =>
      rw [List.eraseIdx_cons_succ, List.filter_cons]
      have hhead : ((0 : Nat) != (m' + 1)) = true := by simp
      rw [hhead]
      simp only [if_true]
      rw [List.filter_map, List.map_cons, List.map_map]
      have hpred : (List.range tl.length).filter ((fun x => x != (m' + 1)) ∘ Nat.succ) =
          (List.range tl.length).filter (fun x => x != m') := by
        apply List.filter_congr
        intro x _
        simp [Function.comp]
      rw [hpred]
      have hcomp : ((fun i => (a :: tl).getD i 0) ∘ Nat.succ) = (fun i => tl.getD i 0) := by
        funext i
        simp [Function.comp, List.getD_cons_succ]
      rw [List.getD_cons_zero]
      have : List.map ((fun i => (a :: tl).getD i 0) ∘ Nat.succ)
          ((List.range tl.length).filter (fun x => x != m')) =
          List.map (fun i => tl.getD i 0)
          ((List.range tl.length).filter (fun x => x != m')) := by
        rw [hcomp]
      rw [this, ih]

theorem intFilter_eq_natFilter (n : Nat) (k : Int) (hk : 0 ≤ k) :
    (List.range n).filter (fun x : Nat => ((x : Int) != k)) =
      (List.range n).filter (fun x => x != k.toNat) := by
  apply List.filter_congr
  intro x _
  rcases Int.eq_ofNat_of_zero_le hk with ⟨m, rfl⟩
  simp [bne]

theorem remove_index_eq_eraseIdx (k : Int) (l : List ℚ) (h0 : 0 ≤ k)
    (h1 : k < (l.length : Int)) :
    remove_index k l = Except.ok (l.eraseIdx k.toNat) := by
  rw [remove_index, if_pos (le_of_lt h1), intFilter_eq_natFilter _ _ h0,
    filter_range_map_getD_eraseIdx]

theorem dice_some_eq (cm : List (List ℚ)) (k : Int) (h0 : 0 ≤ k)
    (h1 : k < (cm.length : Int)) :
    compute_dice_coefficient cm (some k) = Except.ok ((diceVec cm).eraseIdx k.toNat) := by
  rw [compute_dice_coefficient, validate_ignore_index, if_pos h0]
  dsimp only
  rw [validate_num_classes, if_pos h1]
  dsimp only
  rw [diceOps_eq]
  dsimp only
  rw [remove_index_eq_eraseIdx _ _ h0 (by rw [length_diceVec]; exact h1)]

theorem dice_some_neg (cm : List (List ℚ)) (k : Int) (h : k < 0) :
    compute_dice_coefficient cm (some k) = Except.error PyError.assertIgnoreIndexNonneg := by
  rw [compute_dice_coefficient, validate_ignore_index, if_neg (by omega)]

theorem dice_some_ge (cm : List (List ℚ)) (k : Int) (h0 : 0 ≤ k)
    (h : (cm.length : Int) ≤ k) :
    compute_dice_coefficient cm (some k) =
      Except.error PyError.assertIgnoreIndexLtNumClasses := by
  rw [compute_dice_coefficient, validate_ignore_index, if_pos h0]
  dsimp only
  rw [validate_num_classes, if_neg (by omega)]

theorem indicator_eq_replicate (C v : Nat) (h : v < C) :
    (List.range C).map (fun c => if v = c then (1 : ℚ) else 0) =
      List.replicate v 0 ++ (1 : ℚ) :: List.replicate (C - v - 1) 0 := by
  obtain ⟨m, rfl⟩ : ∃ m, C = v + (1 + m) := ⟨C - v - 1, by omega⟩
  have hm : v + (1 + m) - v - 1 = m := by omega
  rw [hm, List.range_add, List.map_append]
  congr 1
  · apply List.eq_replicate_iff.mpr
    constructor
    · simp
    · intro b hb
      rcases List.mem_map.mp hb with ⟨c, hc, rfl⟩
      have : c < v := List.mem_range.mp hc
      simp [Nat.ne_of_gt this]
  · rw [List.map_map]
    have h1m : 1 + m = m + 1 := by omega
    rw [h1m, List.range_succ_eq_map, List.map_cons, List.map_map]
    have hhead : ((fun c => if v = c then (1 : ℚ) else 0) ∘ (fun x => v + x)) 0 = 1 := by
      simp [Function.comp]
    rw [hhead]
    congr 1
    apply List.eq_replicate_iff.mpr
    constructor
    · simp
    · intro b hb
      rcases List.mem_map.mp hb with ⟨c, _, rfl⟩
      simp [Function.comp]

theorem argmaxAux_const (xs : List ℚ) (bestVal : ℚ) (h : ∀ y ∈ xs, ¬ bestVal < y) :
    ∀ i best, argmaxAux xs i bestVal best = best := by
  induction xs with
  | nil => intro i best; rfl
  | cons x tl ih =>
    intro i best
    rw [argmaxAux, if_neg (h x (by simp))]
    exact ih (fun y hy => h y (by simp [hy])) _ _

theorem argmaxAux_zeros_one (m : Nat) :
    ∀ k i best, argmaxAux (List.replicate k (0 : ℚ) ++ (1 : ℚ) :: List.replicate m 0)
      i 0 best = i + k := by
  intro k
  induction k with
  | zero =>
    intro i best
    rw [List.replicate_zero, List.nil_append, argmaxAux, if_pos (by norm_num)]
    rw [argmaxAux_const _ _ (by intro y hy; rw [List.eq_of_mem_replicate hy]; norm_num)]
    omega
  | succ k' ih =>
    intro i best
    rw [List.replicate_succ, List.cons_append, argmaxAux, if_neg (by norm_num)]
    rw [ih (i + 1) best]
    omega

theorem argmaxList_indicator (v C : Nat) (h : v < C) :
    argmaxList ((List.range C).map (fun c => if v = c then (1 : ℚ) else 0)) = v := by
  rw [indicator_eq_replicate C v h]
  cases v with
  | zero =>
    rw [List.replicate_zero, List.nil_append, argmaxList]
    exact argmaxAux_const _ _ (by intro y hy; rw [List.eq_of_mem_replicate hy]; norm_num) _ _
  | succ v' =>
    rw [List.replicate_succ, List.cons_append, argmaxList]
    rw [argmaxAux_zeros_one (C - (v' + 1) - 1) v' 1 0]
    omega

theorem classColumn_onehotRow (C : Nat) (row : List Nat) (p : Nat) (hp : p < row.length) :
    classColumn (onehotRow C row) p =
      (List.range C).map (fun c => if row.getD p 0 = c then (1 : ℚ) else 0) := by
  rw [classColumn, onehotRow, List.map_map]
  apply List.map_congr_left
  intro c _
  simp only [Function.comp]
  rw [List.getD_eq_getElem _ _ (by simpa using hp), List.getElem_map,
    List.getD_eq_getElem _ _ hp]

theorem onehotRow_head_length (C : Nat) (row : List Nat) (hC : 0 < C) :
    ((onehotRow C row).headD []).length = row.length := by
  cases C with
  | zero => omega
  | succ C' =>
    rw [onehotRow, List.range_succ_eq_map, List.map_cons]
    simp

theorem argmax_onehotRow (C : Nat) (row : List Nat) (hC : 0 < C)
    (hv : ∀ v ∈ row, v < C) :
    (List.range ((onehotRow C row).headD []).length).map
      (fun p => argmaxList (classColumn (onehotRow C row) p)) = row := by
  rw [onehotRow_head_length C row hC]
  have hcong : ∀ p ∈ List.range row.length,
      argmaxList (classColumn (onehotRow C row) p) = row.getD p 0 := by
    intro p hp
    have hp' : p < row.length := List.mem_range.mp hp
    have hmem : row.getD p 0 ∈ row := by
      rw [List.getD_eq_getElem _ _ hp']
      exact List.getElem_mem hp'
    rw [classColumn_onehotRow C row p hp',
      argmaxList_indicator (row.getD p 0) C (hv _ hmem)]
  rw [List.map_congr_left hcong, map_getD_range]

theorem map_self_of_mem {α : Type} (l : List α) (f : α → α) (h : ∀ a ∈ l, f a = a) :
    l.map f = l := by
  induction l with
  | nil => rfl
  | cons a tl ih =>
    rw [List.map_cons, h a (by simp), ih (fun b hb => h b (by simp [hb]))]

theorem argmaxAxis1_to_onehot (indices : List (List Nat)) (C : Nat) (hC : 0 < C)
    (hval : ∀ row ∈ indices, ∀ v ∈ row, v < C) :
    argmaxAxis1 (to_onehot indices C) = indices := by
  rw [argmaxAxis1, to_onehot, List.map_map]
  apply map_self_of_mem
  intro row hrow
  simp only [Function.comp]
  exact argmax_onehotRow C row hC (hval row hrow)

theorem to_onehot_getD (indices : List (List Nat)) (C n : Nat) (hn : n < indices.length) :
    (to_onehot indices C).getD n [] = onehotRow C (indices.getD n []) := by
  rw [to_onehot, List.getD_eq_getElem _ _ (by simpa using hn), List.getElem_map,
    List.getD_eq_getElem _ _ hn]

/-- Claim C6: for every integer index tensor with all values in
[0, num_classes), the arg-max along the class axis of to_onehot reconstructs
the index tensor exactly, and along the class axis each position holds exactly
one 1 (at the index given by the input value) with 0 everywhere else: the
class column is zeros, then a single 1 at that value, then zeros. -/
theorem onehot_roundtrip_c6 (indices : List (List Nat)) (num_classes : Nat)
    (hC : 0 < num_classes)
    (hval : ∀ row ∈ indices, ∀ v ∈ row, v < num_classes) :
    argmaxAxis1 (to_onehot indices num_classes) = indices ∧
    ∀ n, n < indices.length → ∀ p, p < (indices.getD n []).length →
      classColumn ((to_onehot indices num_classes).getD n []) p =
        List.replicate ((indices.getD n []).getD p 0) 0 ++
          (1 : ℚ) :: List.replicate (num_classes - (indices.getD n []).getD p 0 - 1) 0 := by
  constructor
  · exact argmaxAxis1_to_onehot indices num_classes hC hval
  · intro n hn p hp
    have hrowmem : indices.getD n [] ∈ indices := by
      rw [List.getD_eq_getElem _ _ hn]
      exact List.getElem_mem hn
    have hvp : (indices.getD n []).getD p 0 ∈ indices.getD n [] := by
      rw [List.getD_eq_getElem _ _ hp]
      exact List.getElem_mem hp
    rw [to_onehot_getD indices num_classes n hn, classColumn_onehotRow _ _ _ hp,
      indicator_eq_replicate _ _ (hval _ hrowmem _ hvp)]

/-- Witness for C6 at the spec's concrete case y = [0,1,2,3], num_classes = 4. -/
theorem onehot_roundtrip_c6_witness :
    0 < 4 ∧ argmaxAxis1 (to_onehot [[0, 1, 2, 3]] 4) = [[0, 1, 2, 3]] :=
  ⟨by decide, (onehot_roundtrip_c6 [[0, 1, 2, 3]] 4 (by decide) (by decide)).1⟩

/-- Claim C1: with no ignore-index, compute_dice_coefficient on a C-by-C
confusion matrix with non-negative entries returns a length-C vector whose
k-th entry is 2 * diagonal[k] / (row_sum[k] + col_sum[k] + EPSILON); the
float64 cast of the source is modelled by exact rational arithmetic. -/
theorem dice_entry_formula_c1 (cm : List (List ℚ)) (hsq : IsSquareCM cm)
    (hnn : NonnegEntries cm) (k : Nat) (hk : k < cm.length) :
    ∃ d, compute_dice_coefficient cm none = Except.ok d ∧ d.length = cm.length ∧
      d.getD k 0 = 2 * ((cm.getD k []).getD k 0) /
        ((cm.getD k []).sum + (cm.map (fun row => row.getD k 0)).sum + EPSILON) :=
  ⟨diceVec cm, dice_none_eq cm, length_diceVec cm, diceVec_getD cm k hk⟩

/-- Witness for C1 at the identity-like 2-by-2 confusion matrix, class 0. -/
theorem dice_entry_formula_c1_witness :
    IsSquareCM [[(1 : ℚ), 0], [0, 1]] ∧ NonnegEntries [[(1 : ℚ), 0], [0, 1]] ∧
    (0 : Nat) < [[(1 : ℚ), 0], [0, 1]].length ∧
    ∃ d, compute_dice_coefficient [[(1 : ℚ), 0], [0, 1]] none = Except.ok d ∧
      d.length = [[(1 : ℚ), 0], [0, 1]].length ∧
      d.getD 0 0 = 2 * (([[(1 : ℚ), 0], [0, 1]].getD 0 []).getD 0 0) /
        (([[(1 : ℚ), 0], [0, 1]].getD 0 []).sum +
          ([[(1 : ℚ), 0], [0, 1]].map (fun row => row.getD 0 0)).sum + EPSILON) :=
  ⟨by decide, by decide, by decide,
    dice_entry_formula_c1 [[(1 : ℚ), 0], [0, 1]] (by decide) (by decide) 0 (by decide)⟩

/-- Counterexample to the second half of claim C3: the nonzero perfectly
diagonal matrix [[1]] yields the per-class Dice value 2 / (2 + 1e-15) =
2000000000000000 / 2000000000000001, which is not exactly 1. -/
theorem dice_diagonal_not_one_c3_counterexample :
    compute_dice_coefficient [[(1 : ℚ)]] none =
      Except.ok [2000000000000000 / 2000000000000001] ∧
    (2000000000000000 / 2000000000000001 : ℚ) ≠ 1 := by
  constructor
  · rw [dice_none_eq]
    simp [diceVec, cmDiag, cmSumDim1, cmSumDim0, EPSILON, List.range_succ]
    norm_num
  · norm_num

/-- Claim C3 (amended): on a square confusion matrix with non-negative
entries every per-class Dice value lies in [0, 1]; and for a perfectly
diagonal matrix, every class whose diagonal entry is at least 1 has a Dice
value strictly between 1 - EPSILON and 1 (not exactly 1, because of the
epsilon in the denominator). -/
theorem dice_bounds_c3 (cm : List (List ℚ)) (hsq : IsSquareCM cm)
    (hnn : NonnegEntries cm) (k : Nat) (hk : k < cm.length) :
    ∃ d, compute_dice_coefficient cm none = Except.ok d ∧ d.length = cm.length ∧
      0 ≤ d.getD k 0 ∧ d.getD k 0 ≤ 1 ∧
      (IsDiagonal cm → 1 ≤ (cm.getD k []).getD k 0 →
        1 - EPSILON < d.getD k 0 ∧ d.getD k 0 < 1) := by
  refine ⟨diceVec cm, dice_none_eq cm, length_diceVec cm, ?_⟩
  rw [diceVec_getD cm k hk]
  have hrowmem : cm.getD k [] ∈ cm := by
    rw [List.getD_eq_getElem _ _ hk]
    exact List.getElem_mem hk
  have hrlen : (cm.getD k []).length = cm.length := hsq _ hrowmem
  have hkrow : k < (cm.getD k []).length := by rw [hrlen]; exact hk
  have hrow_nn : ∀ x ∈ cm.getD k [], 0 ≤ x := hnn _ hrowmem
  have hdmem : (cm.getD k []).getD k 0 ∈ cm.getD k [] := by
    rw [List.getD_eq_getElem _ _ hkrow]
    exact List.getElem_mem hkrow
  have hd0 : 0 ≤ (cm.getD k []).getD k 0 := hrow_nn _ hdmem
  have hdr : (cm.getD k []).getD k 0 ≤ (cm.getD k []).sum :=
    List.single_le_sum hrow_nn _ hdmem
  have hcol_nn : ∀ x ∈ cm.map (fun row => row.getD k 0), 0 ≤ x := by
    intro x hx
    rcases List.mem_map.mp hx with ⟨r, hr, rfl⟩
    by_cases hb : k < r.length
    · rw [List.getD_eq_getElem _ _ hb]
      exact hnn r hr _ (List.getElem_mem hb)
    · rw [List.getD_eq_default _ _ (by omega)]
  have hdcolmem : (cm.getD k []).getD k 0 ∈ cm.map (fun row => row.getD k 0) :=
    List.mem_map.mpr ⟨cm.getD k [], hrowmem, rfl⟩
  have hdc : (cm.getD k []).getD k 0 ≤ (cm.map (fun row => row.getD k 0)).sum :=
    List.single_le_sum hcol_nn _ hdcolmem
  have hr0 : 0 ≤ (cm.getD k []).sum := List.sum_nonneg hrow_nn
  have hc0 : 0 ≤ (cm.map (fun row => row.getD k 0)).sum := List.sum_nonneg hcol_nn
  have heps : (0 : ℚ) < EPSILON := by norm_num [EPSILON]
  have hden : 0 < (cm.getD k []).sum + (cm.map (fun row => row.getD k 0)).sum + EPSILON := by
    linarith
  refine ⟨div_nonneg (by linarith) (le_of_lt hden), ?_, ?_⟩
  · rw [div_le_one hden]
    linarith
  · intro hdiag hd1
    have hrsum : (cm.getD k []).sum = (cm.getD k []).getD k 0 := by
      apply sum_eq_getD_of_others_zero _ k hkrow
      intro j hj hjk
      exact hdiag k hk j (by rw [← hrlen]; exact hj) (fun he => hjk he.symm)
    have hkcol : k < (cm.map (fun row => row.getD k 0)).length := by
      simpa using hk
    have hcolk : (cm.map (fun row => row.getD k 0)).getD k 0 = (cm.getD k []).getD k 0 := by
      rw [List.getD_eq_getElem _ _ hkcol, List.getElem_map, ← List.getD_eq_getElem cm [] hk]
    have hcsum : (cm.map (fun row => row.getD k 0)).sum = (cm.getD k []).getD k 0 := by
      rw [← hcolk]
      apply sum_eq_getD_of_others_zero _ k hkcol
      intro j hj hjk
      have hjcm : j < cm.length := by simpa using hj
      rw [List.getD_eq_getElem _ _ hj, List.getElem_map, ← List.getD_eq_getElem cm [] hjcm]
      exact hdiag j hjcm k hk hjk
    rw [hrsum, hcsum]
    have hden2 : 0 < (cm.getD k []).getD k 0 + (cm.getD k []).getD k 0 + EPSILON := by
      linarith
    constructor
    · rw [lt_div_iff₀ hden2]
      have key : 0 < EPSILON * (2 * (cm.getD k []).getD k 0 + EPSILON - 1) :=
        mul_pos heps (by linarith)
      nlinarith [key]
    · rw [div_lt_one hden2]
      linarith

/-- Witness for C3 (amended) at the diagonal matrix [[2, 0], [0, 3]], class 0. -/
theorem dice_bounds_c3_witness :
    IsSquareCM [[(2 : ℚ), 0], [0, 3]] ∧ NonnegEntries [[(2 : ℚ), 0], [0, 3]] ∧
    (0 : Nat) < [[(2 : ℚ), 0], [0, 3]].length ∧
    ∃ d, compute_dice_coefficient [[(2 : ℚ), 0], [0, 3]] none = Except.ok d ∧
      d.length = [[(2 : ℚ), 0], [0, 3]].length ∧
      0 ≤ d.getD 0 0 ∧ d.getD 0 0 ≤ 1 ∧
      (IsDiagonal [[(2 : ℚ), 0], [0, 3]] → 1 ≤ ([[(2 : ℚ), 0], [0, 3]].getD 0 []).getD 0 0 →
        1 - EPSILON < d.getD 0 0 ∧ d.getD 0 0 < 1) :=
  ⟨by decide, by decide, by decide,
    dice_bounds_c3 [[(2 : ℚ), 0], [0, 3]] (by decide) (by decide) 0 (by decide)⟩

/-- Claim C5: with a supplied ignore-index k, compute_dice_coefficient fails
with a validation error exactly when k < 0 or k is at least the class count,
and otherwise returns the unrestricted per-class Dice vector with position k
deleted (length C - 1, order preserved). -/
theorem dice_ignore_index_c5 (cm : List (List ℚ)) (hsq : IsSquareCM cm) (k : Int) :
    (k < 0 → compute_dice_coefficient cm (some k) =
      Except.error PyError.assertIgnoreIndexNonneg) ∧
    (0 ≤ k → (cm.length : Int) ≤ k → compute_dice_coefficient cm (some k) =
      Except.error PyError.assertIgnoreIndexLtNumClasses) ∧
    (0 ≤ k → k < (cm.length : Int) →
      ∃ d, compute_dice_coefficient cm none = Except.ok d ∧
        compute_dice_coefficient cm (some k) = Except.ok (d.eraseIdx k.toNat) ∧
        (d.eraseIdx k.toNat).length = cm.length - 1) := by
  refine ⟨fun h => dice_some_neg cm k h, fun h0 h => dice_some_ge cm k h0 h,
    fun h0 h1 => ⟨diceVec cm, dice_none_eq cm, dice_some_eq cm k h0 h1, ?_⟩⟩
  have hkn : k.toNat < (diceVec cm).length := by
    rw [length_diceVec]
    omega
  rw [List.length_eraseIdx, if_pos hkn, length_diceVec]

/-- Witness for C5 at the 2-by-2 identity confusion matrix with ignore-index 1. -/
theorem dice_ignore_index_c5_witness :
    IsSquareCM [[(1 : ℚ), 0], [0, 1]] ∧
    (((1 : Int) < 0 → compute_dice_coefficient [[(1 : ℚ), 0], [0, 1]] (some 1) =
      Except.error PyError.assertIgnoreIndexNonneg) ∧
    ((0 : Int) ≤ 1 → ([[(1 : ℚ), 0], [0, 1]].length : Int) ≤ 1 →
      compute_dice_coefficient [[(1 : ℚ), 0], [0, 1]] (some 1) =
        Except.error PyError.assertIgnoreIndexLtNumClasses) ∧
    ((0 : Int) ≤ 1 → (1 : Int) < ([[(1 : ℚ), 0], [0, 1]].length : Int) →
      ∃ d, compute_dice_coefficient [[(1 : ℚ), 0], [0, 1]] none = Except.ok d ∧
        compute_dice_coefficient [[(1 : ℚ), 0], [0, 1]] (some 1) =
          Except.ok (d.eraseIdx (1 : Int).toNat) ∧
        (d.eraseIdx (1 : Int).toNat).length = [[(1 : ℚ), 0], [0, 1]].length - 1)) :=
  ⟨by decide, dice_ignore_index_c5 [[(1 : ℚ), 0], [0, 1]] (by decide) 1⟩

/-- Claim C4: the Generalized Dice computation with the all-ones weight
vector returns exactly the same result as the plain Dice computation, for
every confusion matrix and every ignore-index setting. -/
theorem generalized_ones_eq_dice_c4 (cm : List (List ℚ)) (ignore_index : Option Int) :
    compute_generalized_dice_coefficient cm (some (List.replicate cm.length 1))
      ignore_index = compute_dice_coefficient cm ignore_index := by
  cases ignore_index with
  | none =>
    simp only [compute_generalized_dice_coefficient, compute_dice_coefficient]
    exact genOps_ones cm
  | some k =>
    simp only [compute_generalized_dice_coefficient, compute_dice_coefficient]
    cases hv1 : validate_ignore_index k with
    | error e => rfl
    | ok u =>
      cases hv2 : validate_num_classes k cm.length with
      | error e => rfl
      | ok u2 =>
        dsimp only
        have hws : validate_weights_size (List.replicate cm.length (1 : ℚ)).length
            cm.length = Except.ok () := by
          rw [validate_weights_size, List.length_replicate, if_pos rfl]
        rw [hws]
        dsimp only
        rw [genOps_ones]

/-- Counterexample to claim C2: with no ignore-index supplied, a weight
vector of length 3 against a 4-class confusion matrix is not rejected by any
validation assertion; the computation reaches the tensor arithmetic and fails
there with a size-mismatch RuntimeError instead. -/
theorem generalized_weights_unvalidated_c2_counterexample :
    compute_generalized_dice_coefficient
        [[(1 : ℚ), 0, 0, 0], [0, 1, 0, 0], [0, 0, 1, 0], [0, 0, 0, 1]]
        (some [1, 1, 1]) none =
      Except.error PyError.runtimeErrorSizeMismatch ∧
    compute_generalized_dice_coefficient
        [[(1 : ℚ), 0, 0, 0], [0, 1, 0, 0], [0, 0, 1, 0], [0, 0, 0, 1]]
        (some [1, 1, 1]) none ≠
      Except.error PyError.assertWeightsSize := by
  constructor
  · simp [compute_generalized_dice_coefficient, genOps, bcast2, cmDiag, List.range_succ]
  · simp [compute_generalized_dice_coefficient, genOps, bcast2, cmDiag, List.range_succ]

/-- Claim C2 (amended): the weight-length validation runs only when an
ignore-index is supplied; in that case a weight vector whose length differs
from the class count fails with the weights-size validation error before any
tensor arithmetic. -/
theorem generalized_weights_validation_c2 (cm : List (List ℚ)) (k : Int) (w : List ℚ)
    (h0 : 0 ≤ k) (h1 : k < (cm.length : Int)) (h3 : w.length ≠ cm.length) :
    compute_generalized_dice_coefficient cm (some w) (some k) =
      Except.error PyError.assertWeightsSize := by
  simp only [compute_generalized_dice_coefficient]
  rw [validate_ignore_index, if_pos h0]
  dsimp only
  rw [validate_num_classes, if_pos h1]
  dsimp only
  rw [validate_weights_size, if_neg h3]

/-- Witness for C2 (amended) with a 2-class matrix, ignore-index 0 and a
length-1 weight vector. -/
theorem generalized_weights_validation_c2_witness :
    (0 : Int) ≤ 0 ∧ (0 : Int) < ([[(1 : ℚ), 0], [0, 1]].length : Int) ∧
    [(1 : ℚ)].length ≠ [[(1 : ℚ), 0], [0, 1]].length ∧
    compute_generalized_dice_coefficient [[(1 : ℚ), 0], [0, 1]] (some [(1 : ℚ)])
      (some 0) = Except.error PyError.assertWeightsSize :=
  ⟨by decide, by decide, by decide,
    generalized_weights_validation_c2 [[(1 : ℚ), 0], [0, 1]] 0 [(1 : ℚ)]
      (by decide) (by decide) (by decide)⟩

/-- Claim C10: calling GeneralizedDice.update with the weights argument
omitted (its default None) always fails rather than computing an unweighted
Dice, for every confusion matrix, reduction setting and ignore-index: the
weighted formula is evaluated unconditionally with the supplied weights. -/
theorem generalized_update_requires_weights_c10 (cm : List (List ℚ))
    (reduction : Option ReductionTag) (ignore_index : Option Int) :
    ∃ e, GeneralizedDice_update cm reduction ignore_index none = Except.error e := by
  have hgen : ∃ e, compute_generalized_dice_coefficient cm none ignore_index =
      Except.error e := by
    cases ignore_index with
    | none => exact ⟨PyError.typeErrorMulNone, rfl⟩
    | some k =>
      by_cases h0 : 0 ≤ k
      · by_cases h1 : k < (cm.length : Int)
        · refine ⟨PyError.attributeErrorNoneSize, ?_⟩
          simp only [compute_generalized_dice_coefficient]
          rw [validate_ignore_index, if_pos h0]
          dsimp only
          rw [validate_num_classes, if_pos h1]
        · refine ⟨PyError.assertIgnoreIndexLtNumClasses, ?_⟩
          simp only [compute_generalized_dice_coefficient]
          rw [validate_ignore_index, if_pos h0]
          dsimp only
          rw [validate_num_classes, if_neg h1]
      · refine ⟨PyError.assertIgnoreIndexNonneg, ?_⟩
        simp only [compute_generalized_dice_coefficient]
        rw [validate_ignore_index, if_neg h0]
  rcases hgen with ⟨e, he⟩
  refine ⟨e, ?_⟩
  unfold GeneralizedDice_update
  rw [he]

/-- Claim C7: the encoder widths are base * 2^k for k below the level count,
and in concatenation (interpolation) mode decoder stage i built from the
reversed width list has DoubleConv input-channel count rev[i] + rev[i+1] and
output-channel count rev[i+1], with no learned upsample layer. -/
theorem unet_widths_c7 (b L : Nat) (config : ModelConfiguration)
    (hconf : config.interpolation = true) (k i : Nat) (hk : k < L) (hi : i + 1 < L) :
    (getFeatureMaps b L).getD k 0 = b * 2 ^ k ∧
    (buildDecoder (getFeatureMaps b L) config).length = L - 1 ∧
    ((buildDecoder (getFeatureMaps b L) config).getD i emptyDecoder).upsample = none ∧
    ((buildDecoder (getFeatureMaps b L) config).getD i emptyDecoder).basic_module_in =
      ((getFeatureMaps b L).reverse).getD i 0 +
        ((getFeatureMaps b L).reverse).getD (i + 1) 0 ∧
    ((buildDecoder (getFeatureMaps b L) config).getD i emptyDecoder).basic_module_out =
      ((getFeatureMaps b L).reverse).getD (i + 1) 0 := by
  have hfml : (getFeatureMaps b L).length = L := by simp [getFeatureMaps]
  have hrevl : ((getFeatureMaps b L).reverse).length = L := by simp [hfml]
  have hbd : (buildDecoder (getFeatureMaps b L) config).length = L - 1 := by
    simp [buildDecoder, hrevl]
  have hgetd : (buildDecoder (getFeatureMaps b L) config).getD i emptyDecoder =
      decoderInit
        (((getFeatureMaps b L).reverse).getD i 0 +
          ((getFeatureMaps b L).reverse).getD (i + 1) 0)
        (((getFeatureMaps b L).reverse).getD (i + 1) 0) config := by
    simp only [buildDecoder]
    rw [List.getD_eq_getElem _ _ (by simp [hrevl]; omega), List.getElem_map,
      List.getElem_range]
  refine ⟨?_, hbd, ?_, ?_, ?_⟩
  · rw [getFeatureMaps, List.getD_eq_getElem _ _ (by simpa using hk),
      List.getElem_map, List.getElem_range]
  · rw [hgetd]
    simp [decoderInit, hconf]
  · rw [hgetd]
    simp [decoderInit, hconf]
  · rw [hgetd]
    simp [decoderInit, hconf]

/-- Witness for C7 with base width 4, three levels, interpolation mode,
encoder width index 2 and decoder stage 0. -/
theorem unet_widths_c7_witness :
    exampleInterpConfig.interpolation = true ∧
    ((getFeatureMaps 4 3).getD 2 0 = 4 * 2 ^ 2 ∧
    (buildDecoder (getFeatureMaps 4 3) exampleInterpConfig).length = 3 - 1 ∧
    ((buildDecoder (getFeatureMaps 4 3) exampleInterpConfig).getD 0
      emptyDecoder).upsample = none ∧
    ((buildDecoder (getFeatureMaps 4 3) exampleInterpConfig).getD 0
      emptyDecoder).basic_module_in =
      ((getFeatureMaps 4 3).reverse).getD 0 0 +
        ((getFeatureMaps 4 3).reverse).getD (0 + 1) 0 ∧
    ((buildDecoder (getFeatureMaps 4 3) exampleInterpConfig).getD 0
      emptyDecoder).basic_module_out =
      ((getFeatureMaps 4 3).reverse).getD (0 + 1) 0) :=
  ⟨by decide, unet_widths_c7 4 3 exampleInterpConfig (by decide) 2 0
    (by decide) (by decide)⟩

/-- Claim C8: in the encoder path, DoubleConv's first sublayer output width
is out // 2 unless that is less than the input width, in which case it is the
input width (that is, max(in, out // 2)), and the second sublayer maps that
width to the full target width. -/
theorem double_conv_widths_c8 (in_channels out_channels : Nat) :
    doubleConvChannels in_channels out_channels true =
      ((in_channels, max in_channels (out_channels / 2)),
        (max in_channels (out_channels / 2), out_channels)) := by
  by_cases h : out_channels / 2 < in_channels
  · simp [doubleConvChannels, h, Nat.max_eq_left (Nat.le_of_lt h)]
  · simp [doubleConvChannels, h, Nat.max_eq_right (Nat.le_of_not_lt h)]

/-- Claim C9: with transposed-convolution upsampling selected, the decoder
stage holds a learned ConvTranspose3d from the stage input width to the
output width with stride equal to the configured scale factor, a
ReplicationPad3d padding argument and output_padding 1; its DoubleConv then
maps output width to output width, and the forward pass joins the upsampled
tensor with the encoder features by elementwise addition, not concatenation. -/
theorem decoder_transposed_c9 (in_channels out_channels : Nat)
    (config : ModelConfiguration) (hconf : config.interpolation = false) :
    (decoderInit in_channels out_channels config).upsample = some
      { in_channels := in_channels
        out_channels := out_channels
        kernel_size := config.conv_kernel_size
        stride := config.scale_factor
        padding := PaddingArg.replicationPad3d config.padding
        output_padding := 1 } ∧
    (decoderInit in_channels out_channels config).basic_module_in = out_channels ∧
    (decoderInit in_channels out_channels config).basic_module_out = out_channels ∧
    decoderForward (decoderInit in_channels out_channels config) =
      TensorExpr.basicModule out_channels out_channels
        (TensorExpr.add
          (TensorExpr.upsampleApply
            { in_channels := in_channels
              out_channels := out_channels
              kernel_size := config.conv_kernel_size
              stride := config.scale_factor
              padding := PaddingArg.replicationPad3d config.padding
              output_padding := 1 }
            TensorExpr.input)
          TensorExpr.encoderFeatures) := by
  refine ⟨?_, ?_, ?_, ?_⟩ <;> simp [decoderInit, decoderForward, hconf]

/-- Witness for C9 at input width 8, output width 4 and a concrete
transposed-convolution configuration. -/
theorem decoder_transposed_c9_witness :
    exampleTransposeConfig.interpolation = false ∧
    ((decoderInit 8 4 exampleTransposeConfig).upsample = some
      { in_channels := 8
        out_channels := 4
        kernel_size := exampleTransposeConfig.conv_kernel_size
        stride := exampleTransposeConfig.scale_factor
        padding := PaddingArg.replicationPad3d exampleTransposeConfig.padding
        output_padding := 1 } ∧
    (decoderInit 8 4 exampleTransposeConfig).basic_module_in = 4 ∧
    (decoderInit 8 4 exampleTransposeConfig).basic_module_out = 4 ∧
    decoderForward (decoderInit 8 4 exampleTransposeConfig) =
      TensorExpr.basicModule 4 4
        (TensorExpr.add
          (TensorExpr.upsampleApply
            { in_channels := 8
              out_channels := 4
              kernel_size := exampleTransposeConfig.conv_kernel_size
              stride := exampleTransposeConfig.scale_factor
              padding := PaddingArg.replicationPad3d exampleTransposeConfig.padding
              output_padding := 1 }
            TensorExpr.input)
          TensorExpr.encoderFeatures)) :=
  ⟨by decide, decoder_transposed_c9 8 4 exampleTransposeConfig (by decide)⟩
